import Mathlib

/-!
Verification of the payments engine core (amount arithmetic, per-client
funds state machine, transaction validation and application) against its
natural-language specification.  The definitions below are a shallow
embedding of the Rust sources `amount.rs`, `funds.rs` and
`transactions.rs`; machine integers (`u64`, `u32`, `u16`) are modelled as
`Nat` (the domain is bounded far below the overflow thresholds, which the
spec puts out of scope), and fallible operations return `Option` /
`Except`.
-/

namespace PaymentsEngine

/-! ## Amount (`amount.rs`)

`Amount` is a newtype over `u64` counting ten-thousandths of a unit; we
model the underlying integer directly as `Nat`. -/

abbrev Amount := Nat

/-- Embedding of Rust `u64::from_str` on a character list: an optional
leading `'+'` followed by one or more ASCII digits, with the value
required to fit in `u64`. -/
def parseU64 (cs0 : List Char) : Option Nat :=
  let cs : List Char :=
    match cs0 with
    | '+' :: rest => rest
    | cs => cs
  if cs.isEmpty then none
  else if cs.all Char.isDigit then
    let v := cs.foldl (fun a c => a * 10 + (c.toNat - 48)) 0
    if v < 2 ^ 64 then some v else none
  else none

/-- Index of the first `'.'` in a character list (Rust `str::find('.')`;
the Rust index is in bytes, which coincides with the character index on
the ASCII inputs the amount grammar accepts). -/
def findDot : List Char → Option Nat
  | [] => none
  | c :: cs => if c = '.' then some 0 else (findDot cs).map (fun i => i + 1)

/-- Rust `str::split('.')`: the dot-separated components of a character
list (always at least one component, possibly empty). -/
def splitDots : List Char → List (List Char)
  | [] => [[]]
  | c :: cs =>
    let r := splitDots cs
    if c = '.' then [] :: r
    else
      match r with
      | [] => [[c]]
      | h :: t => (c :: h) :: t

/-- The two error messages `Amount::from_str` can return:
`precision` is "A valid amount is up to 4 digits precision" and
`badInput` is "Bad input for amount". -/
inductive AmountError
  | precision
  | badInput
deriving DecidableEq, Repr

/-- Embedding of `Amount::from_str` (`amount.rs` lines 17-40).  With a
dot present: the fraction taken from the LAST dot-separated component is
right-padded with zeros to 4 digits (rejecting fractions longer than 4,
measured from the FIRST dot), the integer part is the first component,
and both must parse as `u64`; parse failures in this branch reuse the
precision error.  Without a dot the whole string must parse as `u64` and
is scaled by 10000. -/
def Amount.fromStr (s : String) : Except AmountError Amount :=
  let chars := s.toList
  match findDot chars with
  | some index =>
    let decimalLength := (chars.length - 1) - index
    if decimalLength > 4 then Except.error AmountError.precision
    else
      let pad := List.replicate (4 - decimalLength) '0'
      let nums := splitDots chars
      let right := (nums.getLastD []) ++ pad
      match parseU64 (nums.headD []), parseU64 right with
      | some left, some rightV => Except.ok (left * 10000 + rightV)
      | _, _ => Except.error AmountError.precision
  | none =>
    match parseU64 chars with
    | some v => Except.ok (v * 10000)
    | none => Except.error AmountError.badInput

/-- Embedding of `ops::Add for Amount`: plain addition. -/
def Amount.add (a b : Amount) : Amount := a + b

/-- Embedding of `ops::Sub for Amount` (`amount.rs` lines 51-60): if
`self >= rhs` the difference, otherwise `self` unchanged. -/
def Amount.sub (a b : Amount) : Amount :=
  if b ≤ a then a - b else a

/-! ## Funds state machine (`funds.rs`)

`Client(u16)` and `Tx(u32)` are opaque ids, modelled as `Nat`. -/

abbrev Client := Nat
abbrev Tx := Nat

inductive FundingStates
  | Valid
  | Disputed
  | Frozen
deriving DecidableEq, Repr

structure Funds where
  held : Amount
  available : Amount
  client : Client
  state : FundingStates
deriving DecidableEq, Repr

/-- Embedding of `not_frozen` (`funds.rs` lines 68-70). -/
def not_frozen (fund : Funds) : Bool :=
  decide (fund.state ≠ FundingStates.Frozen)

/-- Embedding of `Funds::total`. -/
def Funds.total (f : Funds) : Amount := Amount.add f.available f.held

/-- Embedding of `Funds::deposit` (`funds.rs` lines 22-26). -/
def Funds.deposit (f : Funds) (amount : Amount) : Funds :=
  if not_frozen f then { f with available := Amount.add f.available amount }
  else f

/-- Embedding of `Funds::withdraw` (`funds.rs` lines 28-32). -/
def Funds.withdraw (f : Funds) (amount : Amount) : Funds :=
  if not_frozen f then { f with available := Amount.sub f.available amount }
  else f

/-- Embedding of `Funds::update_dispute` (`funds.rs` lines 50-58); the
`bool` the Rust method also returns is unused by every caller and is
dropped here. -/
def Funds.update_dispute (f : Funds) : Funds :=
  if f.held > 0 then { f with state := FundingStates.Disputed }
  else { f with state := FundingStates.Valid }

/-- Embedding of `Funds::dispute` (`funds.rs` lines 34-40). -/
def Funds.dispute (f : Funds) (amount : Amount) : Funds :=
  if not_frozen f then
    Funds.update_dispute
      { f with held := Amount.add f.held amount,
               available := Amount.sub f.available amount }
  else f

/-- Embedding of `Funds::resolve` (`funds.rs` lines 42-48). -/
def Funds.resolve (f : Funds) (amount : Amount) : Funds :=
  if not_frozen f && decide (f.state = FundingStates.Disputed) then
    Funds.update_dispute
      { f with held := Amount.sub f.held amount,
               available := Amount.add f.available amount }
  else f

/-- Embedding of `Funds::chargeback` (`funds.rs` lines 60-65). -/
def Funds.chargeback (f : Funds) (amount : Amount) : Funds :=
  if not_frozen f && decide (f.state = FundingStates.Disputed) then
    { f with held := Amount.sub f.held amount,
             state := FundingStates.Frozen }
  else f

/-! ## Transaction records and validation (`transactions.rs`) -/

inductive TxType
  | Deposit
  | Withdrawal
  | Dispute
  | Resolve
  | Chargeback
deriving DecidableEq, Repr

/-- Embedding of `TransactionRecord` (`transactions.rs` lines 43-49). -/
structure TransactionRecord where
  type : TxType
  amount : Option Amount
  tx : Tx
  client : Client
deriving DecidableEq, Repr

/-- Embedding of `ProcessedRecord` (`transactions.rs` lines 51-57): the
shape stored in the transaction ledger, with a mandatory amount. -/
structure ProcessedRecord where
  type : TxType
  amount : Amount
  tx : Tx
  client : Client
deriving DecidableEq, Repr

/-- `ClientFunds = HashMap<Client, Funds>`, modelled as a lookup
function. -/
abbrev ClientFunds := Client → Option Funds

/-- `TxRecords = HashMap<Tx, ProcessedRecord>`, modelled as a lookup
function. -/
abbrev TxRecords := Tx → Option ProcessedRecord

/-- Map update at one key (`HashMap::insert`). -/
def setFund (cf : ClientFunds) (c : Client) (f : Funds) : ClientFunds :=
  fun c2 => if c2 = c then some f else cf c2

/-- Ledger update at one key (`HashMap::insert`). -/
def setTxRecord (led : TxRecords) (t : Tx) (p : ProcessedRecord) : TxRecords :=
  fun t2 => if t2 = t then some p else led t2

/-- Embedding of `valid_deposit` (`transactions.rs` lines 82-88). -/
def valid_deposit (client : Option Funds) (record : TransactionRecord) : Bool :=
  match record.type, client, record.amount with
  | TxType.Deposit, some n, some _ => not_frozen n
  | TxType.Deposit, none, some _ => true
  | _, _, _ => false

/-- Embedding of `valid_withdrawal` (`transactions.rs` lines 90-95). -/
def valid_withdrawal (client : Option Funds) (record : TransactionRecord) : Bool :=
  match record.type, client, record.amount with
  | TxType.Withdrawal, some n, some _ => not_frozen n
  | _, _, _ => false

/-- Embedding of `valid_dispute` (`transactions.rs` lines 97-109): all
three arguments present, the row's type is `Dispute`, the funds are not
frozen, and the row's tx id equals the ledger record's tx id.  The
ledger record's client is never compared with the row's client. -/
def valid_dispute (client : Option Funds) (record : Option TransactionRecord)
    (previous_record : Option ProcessedRecord) : Bool :=
  match client, record, previous_record with
  | some fund, some tx_record, some previous =>
    match tx_record.type with
    | TxType.Dispute => not_frozen fund && decide (tx_record.tx = previous.tx)
    | _ => false
  | _, _, _ => false

/-- Embedding of `valid_resolve` (`transactions.rs` lines 111-127). -/
def valid_resolve (client : Option Funds) (record : Option TransactionRecord)
    (previous_record : Option ProcessedRecord) : Bool :=
  match client, record, previous_record with
  | some fund, some tx_record, some previous =>
    match fund.state, tx_record.type with
    | FundingStates.Disputed, TxType.Resolve =>
      not_frozen fund && decide (tx_record.tx = previous.tx)
    | _, _ => false
  | _, _, _ => false

/-- Embedding of `valid_chargeback` (`transactions.rs` lines 129-145). -/
def valid_chargeback (client : Option Funds) (record : Option TransactionRecord)
    (previous_record : Option ProcessedRecord) : Bool :=
  match client, record, previous_record with
  | some fund, some tx_record, some previous =>
    match fund.state, tx_record.type with
    | FundingStates.Disputed, TxType.Chargeback =>
      not_frozen fund && decide (tx_record.tx = previous.tx)
    | _, _ => false
  | _, _, _ => false

/-- Embedding of `transact` (`transactions.rs` lines 147-180).  The Rust
function mutates `client_funds` in place and never touches `records`;
here the updated client table is returned.  The `Option::unwrap` calls
are rendered as `Option.getD _ 0`: each one sits under the validity
guard that makes the option `some`, so the default is unreachable.  The
Rust binding `previous_record = records.get(&initial_record.tx)` is
inlined at its three use sites (the lookup is pure). -/
def transact (client_funds : ClientFunds) (records : TxRecords)
    (initial_record : TransactionRecord) : ClientFunds :=
  match client_funds initial_record.client, initial_record.type with
  | some client, TxType.Deposit =>
    if valid_deposit (some client) initial_record then
      setFund client_funds initial_record.client
        (client.deposit (initial_record.amount.getD 0))
    else client_funds
  | some client, TxType.Withdrawal =>
    if valid_withdrawal (some client) initial_record then
      setFund client_funds initial_record.client
        (client.withdraw (initial_record.amount.getD 0))
    else client_funds
  | some client, TxType.Dispute =>
    if valid_dispute (some client) (some initial_record) (records initial_record.tx) then
      setFund client_funds initial_record.client
        (client.dispute (((records initial_record.tx).map ProcessedRecord.amount).getD 0))
    else client_funds
  | some client, TxType.Resolve =>
    if valid_resolve (some client) (some initial_record) (records initial_record.tx) then
      setFund client_funds initial_record.client
        (client.resolve (((records initial_record.tx).map ProcessedRecord.amount).getD 0))
    else client_funds
  | some client, TxType.Chargeback =>
    if valid_chargeback (some client) (some initial_record) (records initial_record.tx) then
      setFund client_funds initial_record.client
        (client.chargeback (((records initial_record.tx).map ProcessedRecord.amount).getD 0))
    else client_funds
  | none, _ => client_funds

/-! ## Row normalization (`transactions.rs` lines 59-76)

The raw `RowRecord.amount` is an `f64`; the conversion into a
`TransactionRecord` observes it in exactly two ways: the sign test
`amt < 0` (the CSV layer maps an empty or "null" amount field to the
sentinel `-1.0`) and the decimal rendering `amt.to_string()` that is fed
to `Amount::from_str`.  The float itself is out of scope; the record
carries those two observations. -/

structure RowRecord where
  type : TxType
  client : Client
  tx : Tx
  /-- Whether the row's `f64` amount is negative (`amt < 0 as f64`). -/
  amountNeg : Bool
  /-- The decimal rendering `amt.to_string()` of the row's amount. -/
  amountStr : String
deriving DecidableEq, Repr

/-- Embedding of `impl From<RowRecord> for TransactionRecord`
(`transactions.rs` lines 59-76).  A negative amount becomes `none`;
otherwise the rendering is parsed and `.unwrap()`-ed — a parse failure
there is a Rust panic, modelled as `none` for the whole conversion. -/
def toTransactionRecord (val : RowRecord) : Option TransactionRecord :=
  if val.amountNeg then
    some { type := val.type, amount := none, tx := val.tx, client := val.client }
  else
    match Amount.fromStr val.amountStr with
    | Except.ok a =>
      some { type := val.type, amount := some a, tx := val.tx, client := val.client }
    | Except.error _ => none

/-! ## Engine loop

The sources under `src/` contain the validity checks and `transact`,
but not the loop that feeds them: nothing in `src/` creates a `Funds`
entry for a new client or inserts a deposit/withdrawal into the
transaction ledger (`transact` takes the ledger read-only and has no
arm for an absent client).  That loop is modelled here from §4.4 of
the spec, reusing the embedded source functions wherever they exist. -/

/-- The §4.3 legality check that applies to a record, dispatched on its
type exactly as the guards of `transact` dispatch. -/
def legal_record (cf : ClientFunds) (led : TxRecords) (r : TransactionRecord) : Bool :=
  match r.type with
  | TxType.Deposit => valid_deposit (cf r.client) r
  | TxType.Withdrawal => valid_withdrawal (cf r.client) r
  | TxType.Dispute => valid_dispute (cf r.client) (some r) (led r.tx)
  | TxType.Resolve => valid_resolve (cf r.client) (some r) (led r.tx)
  | TxType.Chargeback => valid_chargeback (cf r.client) (some r) (led r.tx)

/-- Whether a record type is stored in the transaction ledger
(deposit/withdrawal rows only; spec §3 and `should_replace` in
`accounts.rs`). -/
def isLedgerType : TxType → Bool
  | TxType.Deposit => true
  | TxType.Withdrawal => true
  | _ => false

/-- Modelled from the spec: the engine step of §4.4, which is not under
`src/` (only `transact` and the validity checks are).  Steps 2-4: look
up the client's `Funds` (absent ⇒ only a valid deposit may create one,
its amount becoming the available balance); if the client exists apply
`transact`; if the record is a legal deposit/withdrawal insert/overwrite
its ledger entry keyed by tx id.  Illegal records leave both tables
unchanged. -/
def engineStep (s : ClientFunds × TxRecords) (r : TransactionRecord) :
    ClientFunds × TxRecords :=
  match s.1 r.client with
  | none =>
    if valid_deposit none r then
      (setFund s.1 r.client
        { held := 0, available := r.amount.getD 0, client := r.client,
          state := FundingStates.Valid },
       setTxRecord s.2 r.tx
        { type := r.type, amount := r.amount.getD 0, tx := r.tx, client := r.client })
    else s
  | some _ =>
    if isLedgerType r.type && legal_record s.1 s.2 r then
      (transact s.1 s.2 r,
       setTxRecord s.2 r.tx
        { type := r.type, amount := r.amount.getD 0, tx := r.tx, client := r.client })
    else (transact s.1 s.2 r, s.2)

/-- Modelled from the spec: the strict left-to-right fold of §4.4 step 5,
from an arbitrary intermediate state. -/
def processFrom (s : ClientFunds × TxRecords) (rs : List TransactionRecord) :
    ClientFunds × TxRecords :=
  rs.foldl engineStep s

/-- Modelled from the spec: a whole run starting from empty tables. -/
def process (rs : List TransactionRecord) : ClientFunds × TxRecords :=
  processFrom ((fun _ => none), (fun _ => none)) rs

/-! ## Helper lemmas -/

theorem update_dispute_held (f : Funds) : (Funds.update_dispute f).held = f.held := by
  unfold Funds.update_dispute
  split <;> rfl

theorem update_dispute_available (f : Funds) :
    (Funds.update_dispute f).available = f.available := by
  unfold Funds.update_dispute
  split <;> rfl

/-- `transact` either leaves the client table unchanged or overwrites the
entry of the record's own client. -/
theorem transact_cases (cf : ClientFunds) (led : TxRecords) (r : TransactionRecord) :
    transact cf led r = cf ∨ ∃ g, transact cf led r = setFund cf r.client g := by
  unfold transact
  split <;>
    first
      | exact Or.inl rfl
      | (split
         · exact Or.inr ⟨_, rfl⟩
         · exact Or.inl rfl)

/-- `transact` never deletes a client entry. -/
theorem transact_keeps (cf : ClientFunds) (led : TxRecords) (r : TransactionRecord)
    (c : Client) (f : Funds) (h : cf c = some f) :
    ∃ g, transact cf led r c = some g := by
  rcases transact_cases cf led r with heq | ⟨g, heq⟩
  · exact ⟨f, by rw [heq, h]⟩
  · rw [heq]
    unfold setFund
    by_cases hce : c = r.client
    · exact ⟨g, by simp [hce]⟩
    · exact ⟨f, by simp [hce, h]⟩

/-- `transact` only ever touches the entry of the record's own client. -/
theorem transact_other (cf : ClientFunds) (led : TxRecords) (r : TransactionRecord)
    (c : Client) (h : c ≠ r.client) :
    transact cf led r c = cf c := by
  rcases transact_cases cf led r with heq | ⟨g, heq⟩
  · rw [heq]
  · rw [heq]; simp [setFund, h]

/-- An illegal record leaves the client table unchanged through
`transact`. -/
theorem transact_illegal (cf : ClientFunds) (led : TxRecords) (r : TransactionRecord)
    (h : legal_record cf led r = false) : transact cf led r = cf := by
  rcases hty : r.type <;>
    rcases hc : cf r.client with _ | f <;>
      simp only [legal_record, hty, hc] at h <;>
        simp [transact, hty, hc, h]

/-- A deposit row for an absent client is valid exactly when it carries
an amount. -/
theorem valid_deposit_none_iff (r : TransactionRecord) :
    valid_deposit none r = true ↔ r.type = TxType.Deposit ∧ ∃ a, r.amount = some a := by
  rcases r with ⟨ty, amt, tx, cl⟩
  cases ty <;> cases amt <;> simp [valid_deposit]

theorem valid_withdrawal_none (r : TransactionRecord) :
    valid_withdrawal none r = false := by
  rcases r with ⟨ty, amt, tx, cl⟩
  cases ty <;> cases amt <;> rfl

theorem valid_dispute_none (rec : Option TransactionRecord)
    (prev : Option ProcessedRecord) : valid_dispute none rec prev = false := by
  cases rec <;> cases prev <;> rfl

theorem valid_resolve_none (rec : Option TransactionRecord)
    (prev : Option ProcessedRecord) : valid_resolve none rec prev = false := by
  cases rec <;> cases prev <;> rfl

theorem valid_chargeback_none (rec : Option TransactionRecord)
    (prev : Option ProcessedRecord) : valid_chargeback none rec prev = false := by
  cases rec <;> cases prev <;> rfl

/-- One engine step never deletes a client entry. -/
theorem engineStep_keeps (s : ClientFunds × TxRecords) (r : TransactionRecord)
    (c : Client) (f : Funds) (h : s.1 c = some f) :
    ∃ g, (engineStep s r).1 c = some g := by
  unfold engineStep
  split
  · rename_i heq
    split
    · by_cases hce : c = r.client
      · subst hce
        rw [h] at heq
        exact Option.noConfusion heq
      · exact ⟨f, by simp [setFund, hce, h]⟩
    · exact ⟨f, h⟩
  · split
    · exact transact_keeps s.1 s.2 r c f h
    · exact transact_keeps s.1 s.2 r c f h

/-- A whole run never deletes a client entry. -/
theorem processFrom_keeps (rs : List TransactionRecord)
    (s : ClientFunds × TxRecords) (c : Client) (f : Funds) (h : s.1 c = some f) :
    ∃ g, (processFrom s rs).1 c = some g := by
  induction rs generalizing s f with
  | nil => exact ⟨f, h⟩
  | cons r rs ih =>
    obtain ⟨g, hg⟩ := engineStep_keeps s r c f h
    exact ih (engineStep s r) g hg

/-! ## Claims -/

/-- Claim C6: amount subtraction implements the no-op-on-insufficient-funds
policy: for `a < b`, `subtract(a, b) = a`; for `a ≥ b`, `subtract(a, b)`
is the exact difference `a - b`. -/
theorem c6_subtract_policy (a b : Amount) :
    (a < b → Amount.sub a b = a) ∧ (b ≤ a → Amount.sub a b = a - b) := by
  constructor
  · intro h
    simp [Amount.sub, Nat.not_le.mpr h]
  · intro h
    simp [Amount.sub, h]

theorem c6_subtract_policy_witness :
    ((2 : Amount) < 5 ∧ Amount.sub 2 5 = 2) ∧ ((3 : Amount) ≤ 7 ∧ Amount.sub 7 3 = 7 - 3) :=
  ⟨⟨by decide, (c6_subtract_policy 2 5).1 (by decide)⟩,
   ⟨by decide, (c6_subtract_policy 7 3).2 (by decide)⟩⟩

/-- Claim C7: the five pinned parse vectors of `Amount::from_str`:
`"100" ↦ 1000000`, `"1.234" ↦ 12340`, `"0.0001" ↦ 1`, `"5.8" ↦ 58000`,
and `"0.00001"` fails with the precision error. -/
theorem c7_parse_vectors :
    Amount.fromStr "100" = Except.ok 1000000 ∧
    Amount.fromStr "1.234" = Except.ok 12340 ∧
    Amount.fromStr "0.0001" = Except.ok 1 ∧
    Amount.fromStr "5.8" = Except.ok 58000 ∧
    Amount.fromStr "0.00001" = Except.error AmountError.precision :=
  ⟨rfl, rfl, rfl, rfl, rfl⟩

/-- Claim C4: `Frozen` is a terminal sink: on a frozen `Funds` value every
one of the five operations returns the value unchanged, for every
amount. -/
theorem c4_frozen_is_terminal (f : Funds) (amt : Amount)
    (h : f.state = FundingStates.Frozen) :
    f.deposit amt = f ∧ f.withdraw amt = f ∧ f.dispute amt = f ∧
    f.resolve amt = f ∧ f.chargeback amt = f := by
  have hnf : not_frozen f = false := by simp [not_frozen, h]
  simp [Funds.deposit, Funds.withdraw, Funds.dispute, Funds.resolve,
    Funds.chargeback, hnf]

theorem c4_frozen_is_terminal_witness :
    Funds.deposit ⟨5, 10, 1, FundingStates.Frozen⟩ 3 = ⟨5, 10, 1, FundingStates.Frozen⟩ ∧
    Funds.withdraw ⟨5, 10, 1, FundingStates.Frozen⟩ 3 = ⟨5, 10, 1, FundingStates.Frozen⟩ ∧
    Funds.dispute ⟨5, 10, 1, FundingStates.Frozen⟩ 3 = ⟨5, 10, 1, FundingStates.Frozen⟩ ∧
    Funds.resolve ⟨5, 10, 1, FundingStates.Frozen⟩ 3 = ⟨5, 10, 1, FundingStates.Frozen⟩ ∧
    Funds.chargeback ⟨5, 10, 1, FundingStates.Frozen⟩ 3 = ⟨5, 10, 1, FundingStates.Frozen⟩ :=
  c4_frozen_is_terminal ⟨5, 10, 1, FundingStates.Frozen⟩ 3 rfl

/-- Claim C8: on a `Disputed` value, `chargeback(amt)` sets held to
`subtract(held, amt)` (a no-op when `held < amt`, by C6's policy), sets
the state to `Frozen` unconditionally, and leaves available unchanged. -/
theorem c8_chargeback_semantics (f : Funds) (amt : Amount)
    (h : f.state = FundingStates.Disputed) :
    (f.chargeback amt).held = Amount.sub f.held amt ∧
    (f.chargeback amt).state = FundingStates.Frozen ∧
    (f.chargeback amt).available = f.available := by
  simp [Funds.chargeback, not_frozen, h]

theorem c8_chargeback_semantics_witness :
    (Funds.chargeback ⟨20, 100, 1, FundingStates.Disputed⟩ 5).held = Amount.sub 20 5 ∧
    (Funds.chargeback ⟨20, 100, 1, FundingStates.Disputed⟩ 5).state = FundingStates.Frozen ∧
    (Funds.chargeback ⟨20, 100, 1, FundingStates.Disputed⟩ 5).available = 100 :=
  c8_chargeback_semantics ⟨20, 100, 1, FundingStates.Disputed⟩ 5 rfl

/-- Claim C10: on a `Disputed` value with `held < amt`, `resolve(amt)`
leaves held unchanged (the guarded subtraction no-ops) yet still adds
the full `amt` to available, so the total strictly increases by `amt`:
resolve does not conserve the total in this case. -/
theorem c10_resolve_inflates_total (f : Funds) (amt : Amount)
    (h : f.state = FundingStates.Disputed) (hlt : f.held < amt) :
    (f.resolve amt).held = f.held ∧
    (f.resolve amt).available = f.available + amt ∧
    (f.resolve amt).total = f.total + amt ∧
    f.total < (f.resolve amt).total := by
  have hsub : Amount.sub f.held amt = f.held := by
    simp [Amount.sub, Nat.not_le.mpr hlt]
  have hguard : (not_frozen f && decide (f.state = FundingStates.Disputed)) = true := by
    simp [not_frozen, h]
  refine ⟨?_, ?_, ?_, ?_⟩
  · simp only [Funds.resolve, hguard, if_true, update_dispute_held, hsub]
  · simp only [Funds.resolve, hguard, if_true, update_dispute_available, Amount.add]
  · simp only [Funds.resolve, hguard, if_true, Funds.total, update_dispute_held,
      update_dispute_available, hsub, Amount.add]
    ring
  · simp only [Funds.resolve, hguard, if_true, Funds.total, update_dispute_held,
      update_dispute_available, hsub, Amount.add]
    exact Nat.add_lt_add_right
      (Nat.lt_add_of_pos_right (Nat.lt_of_le_of_lt (Nat.zero_le _) hlt)) f.held

theorem c10_resolve_inflates_total_witness :
    (Funds.resolve ⟨2, 100, 1, FundingStates.Disputed⟩ 9).held = 2 ∧
    (Funds.resolve ⟨2, 100, 1, FundingStates.Disputed⟩ 9).available = 100 + 9 ∧
    (Funds.resolve ⟨2, 100, 1, FundingStates.Disputed⟩ 9).total =
      Funds.total ⟨2, 100, 1, FundingStates.Disputed⟩ + 9 ∧
    Funds.total ⟨2, 100, 1, FundingStates.Disputed⟩ <
      (Funds.resolve ⟨2, 100, 1, FundingStates.Disputed⟩ 9).total :=
  c10_resolve_inflates_total ⟨2, 100, 1, FundingStates.Disputed⟩ 9 rfl (by decide)

/-- Claim C2, counterexample: a dispute row of client 1 referencing a
ledger deposit that belongs to client 2 passes `valid_dispute`, and
`transact` applies it, moving client 2's deposit amount into client 1's
held balance — so legality does NOT require the ledger record to belong
to the same client as the dispute row. -/
theorem c2_cross_client_dispute_accepted :
    valid_dispute (some ⟨0, 100, 1, FundingStates.Valid⟩)
        (some ⟨TxType.Dispute, none, 7, 1⟩)
        (some ⟨TxType.Deposit, 5, 7, 2⟩) = true ∧
    ProcessedRecord.client ⟨TxType.Deposit, 5, 7, 2⟩ ≠
      TransactionRecord.client ⟨TxType.Dispute, none, 7, 1⟩ ∧
    transact (setFund (fun _ => none) 1 ⟨0, 100, 1, FundingStates.Valid⟩)
        (setTxRecord (fun _ => none) 7 ⟨TxType.Deposit, 5, 7, 2⟩)
        ⟨TxType.Dispute, none, 7, 1⟩ 1
      = some ⟨5, 95, 1, FundingStates.Disputed⟩ := by
  refine ⟨rfl, by decide, rfl⟩

/-- Claim C2 as amended: a dispute is legal iff the row's type is
`Dispute`, the row's client has a `Funds` entry that is not `Frozen`,
and the referenced tx exists in the ledger with the row's tx id — the
ledger record's client is NOT compared with the dispute row's client.
A dispute with no client entry or no ledger entry is illegal, and a
legal dispute is applied with the amount stored on the original ledger
record, never one carried by the dispute row. -/
theorem c2_dispute_legality (f : Funds) (r : TransactionRecord) (p : ProcessedRecord)
    (cf : ClientFunds) (led : TxRecords) :
    (valid_dispute (some f) (some r) (some p) = true ↔
      r.type = TxType.Dispute ∧ f.state ≠ FundingStates.Frozen ∧ r.tx = p.tx) ∧
    valid_dispute none (some r) (some p) = false ∧
    valid_dispute (some f) (some r) none = false ∧
    (cf r.client = some f → led r.tx = some p →
      valid_dispute (some f) (some r) (some p) = true →
      transact cf led r = setFund cf r.client (f.dispute p.amount)) := by
  rcases r with ⟨ty, amt, tx, cl⟩
  refine ⟨?_, ?_, ?_, ?_⟩
  · cases ty <;> simp [valid_dispute, not_frozen]
  · simp [valid_dispute]
  · simp [valid_dispute]
  · intro hc hled hv
    have hty : ty = TxType.Dispute := by
      cases ty <;> simp_all [valid_dispute]
    subst hty
    simp only [transact, hc, hled, hv, if_true]
    rfl

theorem c2_dispute_legality_witness :
    transact (setFund (fun _ => none) 1 ⟨30, 400, 1, FundingStates.Valid⟩)
        (setTxRecord (fun _ => none) 9 ⟨TxType.Deposit, 40, 9, 1⟩)
        ⟨TxType.Dispute, some 77, 9, 1⟩
      = setFund (setFund (fun _ => none) 1 ⟨30, 400, 1, FundingStates.Valid⟩) 1
          (Funds.dispute ⟨30, 400, 1, FundingStates.Valid⟩ 40) :=
  (c2_dispute_legality ⟨30, 400, 1, FundingStates.Valid⟩ ⟨TxType.Dispute, some 77, 9, 1⟩
    ⟨TxType.Deposit, 40, 9, 1⟩
    (setFund (fun _ => none) 1 ⟨30, 400, 1, FundingStates.Valid⟩)
    (setTxRecord (fun _ => none) 9 ⟨TxType.Deposit, 40, 9, 1⟩)).2.2.2
    (by decide) (by decide) (by decide)

/-- Claim C3, counterexample: with client 1 in state `Disputed`, a
resolve (and likewise a chargeback) row of client 1 referencing a ledger
deposit that belongs to client 2 passes the legality check — so neither
the same-client condition nor any "referenced tx is the one currently
under dispute" condition is enforced (the `Funds` state does not even
record which tx is disputed). -/
theorem c3_cross_client_resolve_accepted :
    valid_resolve (some ⟨20, 100, 1, FundingStates.Disputed⟩)
        (some ⟨TxType.Resolve, none, 7, 1⟩)
        (some ⟨TxType.Deposit, 5, 7, 2⟩) = true ∧
    valid_chargeback (some ⟨20, 100, 1, FundingStates.Disputed⟩)
        (some ⟨TxType.Chargeback, none, 7, 1⟩)
        (some ⟨TxType.Deposit, 5, 7, 2⟩) = true ∧
    ProcessedRecord.client ⟨TxType.Deposit, 5, 7, 2⟩ ≠
      TransactionRecord.client ⟨TxType.Resolve, none, 7, 1⟩ ∧
    transact (setFund (fun _ => none) 1 ⟨20, 100, 1, FundingStates.Disputed⟩)
        (setTxRecord (fun _ => none) 7 ⟨TxType.Deposit, 5, 7, 2⟩)
        ⟨TxType.Resolve, none, 7, 1⟩ 1
      = some ⟨15, 105, 1, FundingStates.Disputed⟩ := by
  refine ⟨rfl, rfl, by decide, rfl⟩

/-- Claim C3 as amended: a resolve (resp. chargeback) is legal iff the
row's type matches, the row's client's state is exactly `Disputed`, and
the referenced tx exists in the ledger with the row's tx id; the ledger
record's client is NOT compared with the row's client, and no check ties
the referenced tx to the dispute that put the client in `Disputed`.
Rows with no client entry or no ledger entry are illegal, and a row
whose check fails is dropped by `transact` with no effect. -/
theorem c3_resolve_chargeback_legality (f : Funds) (r : TransactionRecord)
    (p : ProcessedRecord) (cf : ClientFunds) (led : TxRecords) :
    (valid_resolve (some f) (some r) (some p) = true ↔
      r.type = TxType.Resolve ∧ f.state = FundingStates.Disputed ∧ r.tx = p.tx) ∧
    (valid_chargeback (some f) (some r) (some p) = true ↔
      r.type = TxType.Chargeback ∧ f.state = FundingStates.Disputed ∧ r.tx = p.tx) ∧
    valid_resolve none (some r) (some p) = false ∧
    valid_resolve (some f) (some r) none = false ∧
    valid_chargeback none (some r) (some p) = false ∧
    valid_chargeback (some f) (some r) none = false ∧
    (cf r.client = some f → r.type = TxType.Resolve →
      valid_resolve (some f) (some r) (led r.tx) = false →
      transact cf led r = cf) ∧
    (cf r.client = some f → r.type = TxType.Chargeback →
      valid_chargeback (some f) (some r) (led r.tx) = false →
      transact cf led r = cf) := by
  rcases r with ⟨ty, amt, tx, cl⟩
  refine ⟨?_, ?_, ?_, ?_, ?_, ?_, ?_, ?_⟩
  · rcases hs : f.state <;> cases ty <;> simp [valid_resolve, not_frozen, hs]
  · rcases hs : f.state <;> cases ty <;> simp [valid_chargeback, not_frozen, hs]
  · simp [valid_resolve]
  · simp [valid_resolve]
  · simp [valid_chargeback]
  · simp [valid_chargeback]
  · intro hc hty hv
    subst hty
    simp only [transact, hc, hv, if_false, Bool.false_eq_true]
  · intro hc hty hv
    subst hty
    simp only [transact, hc, hv, if_false, Bool.false_eq_true]

theorem c3_resolve_chargeback_legality_witness :
    transact (setFund (fun _ => none) 1 ⟨0, 50, 1, FundingStates.Valid⟩)
        (setTxRecord (fun _ => none) 4 ⟨TxType.Deposit, 50, 4, 1⟩)
        ⟨TxType.Resolve, none, 4, 1⟩
      = setFund (fun _ => none) 1 ⟨0, 50, 1, FundingStates.Valid⟩ :=
  (c3_resolve_chargeback_legality ⟨0, 50, 1, FundingStates.Valid⟩
    ⟨TxType.Resolve, none, 4, 1⟩ ⟨TxType.Deposit, 50, 4, 1⟩
    (setFund (fun _ => none) 1 ⟨0, 50, 1, FundingStates.Valid⟩)
    (setTxRecord (fun _ => none) 4 ⟨TxType.Deposit, 50, 4, 1⟩)).2.2.2.2.2.2.1
    (by decide) rfl (by decide)

/-- Claim C9, counterexample: normalization CAN raise an uncatchable
fault.  The non-negative `f64` value `0.00001` (1e-5) renders via Rust's
`to_string` as `"0.00001"`, whose `Amount::from_str` parse fails with
the precision error, so the `.unwrap()` inside
`From<RowRecord> for TransactionRecord` panics instead of returning a
typed error (`none` models the panic). -/
theorem c9_normalization_panics :
    toTransactionRecord ⟨TxType.Deposit, 1, 1, false, "0.00001"⟩ = none ∧
    Amount.fromStr "0.00001" = Except.error AmountError.precision :=
  ⟨rfl, rfl⟩

/-- Claim C9 as amended: normalizing a `RowRecord` coerces a negative
amount (the null/empty sentinel) to an absent amount without failure,
and otherwise feeds the amount's decimal rendering to `Amount.parse`;
when that parse succeeds the record is returned with the parsed amount,
and when it fails the conversion panics via `unwrap` (an uncatchable
fault, modelled as `none`) rather than propagating a typed error. -/
theorem c9_normalization_semantics (v : RowRecord) :
    (v.amountNeg = true →
      toTransactionRecord v = some ⟨v.type, none, v.tx, v.client⟩) ∧
    (∀ a, v.amountNeg = false → Amount.fromStr v.amountStr = Except.ok a →
      toTransactionRecord v = some ⟨v.type, some a, v.tx, v.client⟩) ∧
    (∀ e, v.amountNeg = false → Amount.fromStr v.amountStr = Except.error e →
      toTransactionRecord v = none) := by
  refine ⟨?_, ?_, ?_⟩
  · intro h
    simp [toTransactionRecord, h]
  · intro a h hok
    simp [toTransactionRecord, h, hok]
  · intro e h herr
    simp [toTransactionRecord, h, herr]

theorem c9_normalization_semantics_witness :
    toTransactionRecord ⟨TxType.Deposit, 3, 9, false, "5.8"⟩ =
      some ⟨TxType.Deposit, some 58000, 9, 3⟩ :=
  (c9_normalization_semantics ⟨TxType.Deposit, 3, 9, false, "5.8"⟩).2.1 58000 rfl rfl

/-- Claim C1: a `Funds` entry is created exactly on the client's first
valid deposit, with the deposit's amount as the available balance; any
record of another type with no existing entry is invalid under every
legality check and creates no entry; a step never touches another
client's entry; and over a whole run an existing entry is never
deleted. -/
theorem c1_funds_lifecycle (cf : ClientFunds) (led : TxRecords) (r : TransactionRecord) :
    (∀ a, cf r.client = none → r.type = TxType.Deposit → r.amount = some a →
      (engineStep (cf, led) r).1 r.client =
        some ⟨0, a, r.client, FundingStates.Valid⟩) ∧
    (cf r.client = none → valid_deposit none r = false →
      (engineStep (cf, led) r).1 r.client = none) ∧
    (r.type ≠ TxType.Deposit →
      valid_deposit none r = false ∧
      valid_withdrawal none r = false ∧
      valid_dispute none (some r) (led r.tx) = false ∧
      valid_resolve none (some r) (led r.tx) = false ∧
      valid_chargeback none (some r) (led r.tx) = false) ∧
    (∀ c, c ≠ r.client → (engineStep (cf, led) r).1 c = cf c) ∧
    (∀ rs c f2, cf c = some f2 →
      ∃ g, (processFrom (cf, led) rs).1 c = some g) := by
  refine ⟨?_, ?_, ?_, ?_, ?_⟩
  · intro a hc hty hamt
    have hv : valid_deposit none r = true :=
      (valid_deposit_none_iff r).mpr ⟨hty, a, hamt⟩
    simp [engineStep, hc, hv, hamt, setFund]
  · intro hc hv
    simp [engineStep, hc, hv]
  · intro hty
    refine ⟨?_, valid_withdrawal_none r, valid_dispute_none _ _,
      valid_resolve_none _ _, valid_chargeback_none _ _⟩
    rcases hv : valid_deposit none r with _ | _
    · rfl
    · exact absurd ((valid_deposit_none_iff r).mp hv).1 hty
  · intro c hne
    rcases hc : cf r.client with _ | f
    · rcases hv : valid_deposit none r with _ | _ <;>
        simp [engineStep, hc, hv, setFund, hne]
    · have hother := transact_other cf led r c hne
      rcases hb : (isLedgerType r.type && legal_record cf led r) with _ | _ <;>
        simp [engineStep, hc, hb, hother]
  · intro rs c f2 hc
    exact processFrom_keeps rs (cf, led) c f2 hc

theorem c1_funds_lifecycle_witness :
    (engineStep ((fun _ => none), (fun _ => none))
        ⟨TxType.Deposit, some 5, 1, 1⟩).1 1
      = some ⟨0, 5, 1, FundingStates.Valid⟩ :=
  (c1_funds_lifecycle (fun _ => none) (fun _ => none)
    ⟨TxType.Deposit, some 5, 1, 1⟩).1 5 rfl rfl rfl

/-- Claim C5: a record that fails its legality check mutates nothing:
one engine step on it returns the client table and the ledger exactly
as they were (no error is surfaced — the step is a total function), and
the run continues with the remaining records as if the record had not
been there. -/
theorem c5_illegal_record_no_mutation (cf : ClientFunds) (led : TxRecords)
    (r : TransactionRecord) (rs : List TransactionRecord)
    (h : legal_record cf led r = false) :
    engineStep (cf, led) r = (cf, led) ∧
    processFrom (cf, led) (r :: rs) = processFrom (cf, led) rs := by
  have hstep : engineStep (cf, led) r = (cf, led) := by
    rcases hc : cf r.client with _ | f
    · have hv : valid_deposit none r = false := by
        rcases hty : r.type
        · simpa only [legal_record, hty, hc] using h
        all_goals
          rcases hvd : valid_deposit none r with _ | _
          · rfl
          all_goals
            exact absurd ((valid_deposit_none_iff r).mp hvd).1 (by rw [hty]; intro hh; cases hh)
      simp [engineStep, hc, hv]
    · have ht : transact cf led r = cf := transact_illegal cf led r h
      have hb : (isLedgerType r.type && legal_record cf led r) = false := by
        simp [h]
      simp [engineStep, hc, hb, ht]
  refine ⟨hstep, ?_⟩
  show processFrom (engineStep (cf, led) r) rs = processFrom (cf, led) rs
  rw [hstep]

theorem c5_illegal_record_no_mutation_witness :
    engineStep ((fun _ => none), (fun _ => none))
        ⟨TxType.Withdrawal, some 5, 1, 1⟩
      = ((fun _ => none), (fun _ => none)) ∧
    processFrom ((fun _ => none), (fun _ => none))
        [⟨TxType.Withdrawal, some 5, 1, 1⟩]
      = processFrom ((fun _ => none), (fun _ => none)) [] :=
  c5_illegal_record_no_mutation (fun _ => none) (fun _ => none)
    ⟨TxType.Withdrawal, some 5, 1, 1⟩ [] rfl

end PaymentsEngine
